import Mathlib

/-!
Verification of the req_md repository's core: the request-line grammar
parser (`src/crates/reqmd_ast/src/http_data/parser.rs`), the position
algebra (`src/crates/reqmd_ast/src/position.rs`), the block extractor
(`src/crates/reqmd_ast/src/http_data.rs`), front-matter defaults
(`src/crates/reqmd_ast/src/meta_data.rs`,
`src/crates/reqmd_ast/src/gloabl_http_defaults.rs`), the build pipeline
(`src/crates/reqmd_core/src/factory.rs`) and request selection
(`src/crates/reqmd_core/src/md_request_list.rs`,
`src/crates/reqmd_cli/src/structs/selection.rs`).

Strings under parsing are modelled as `List Char`; offsets count
characters (the Rust code counts bytes: the two coincide on ASCII
sources, and every concrete input used here is ASCII).
-/

namespace ReqMd

/-! ## Nom combinator model

The Rust parser is written with nom's complete combinators.  Each
combinator here is the deterministic, greedy semantics of its nom
namesake over `List Char`: a parser maps an input to `none` (error) or
`some (rest, value)`.  Repetition combinators use fuel bounded by the
input length; a step of `fold_many0`/`many1_count` that succeeds without
consuming input is an error, exactly as in nom's infinite-loop guard.
-/

abbrev NomP (α : Type) := List Char → Option (List Char × α)

/-- nom `tag`: match an exact character sequence. -/
def tag (s : List Char) : NomP (List Char) := fun input =>
  if s.isPrefixOf input then some (input.drop s.length, s) else none

/-- Longest nonempty run of characters satisfying `p` (shared shape of
nom's `alpha1`, `alphanumeric1`, `space1`, `is_a`). -/
def satisfyRun (p : Char → Bool) : NomP (List Char) := fun input =>
  let run := input.takeWhile p
  if run.isEmpty then none else some (input.drop run.length, run)

/-- nom `alpha1`: one or more ASCII alphabetic characters. -/
def alpha1 : NomP (List Char) := satisfyRun Char.isAlpha

/-- nom `alphanumeric1`: one or more ASCII alphanumeric characters. -/
def alphanumeric1 : NomP (List Char) := satisfyRun Char.isAlphanum

/-- nom `is_a`: longest nonempty run of characters from a set. -/
def is_a (set : List Char) : NomP (List Char) :=
  satisfyRun (fun c => set.contains c)

/-- nom `space1`: one or more of space or tab. -/
def space1 : NomP (List Char) := satisfyRun (fun c => c == ' ' || c == '\t')

/-- nom `newline`: the single character LF. -/
def newline : NomP Char := fun input =>
  match input with
  | c :: rest => if c == '\n' then some (rest, c) else none
  | [] => none

/-- nom `opt`: always succeeds, wrapping the result in `Option`. -/
def opt (p : NomP α) : NomP (Option α) := fun input =>
  match p input with
  | some (rest, a) => some (rest, some a)
  | none => some (input, none)

/-- nom `preceded`: run `p`, discard it, then run `q`. -/
def preceded (p : NomP α) (q : NomP β) : NomP β := fun input =>
  match p input with
  | some (rest, _) => q rest
  | none => none

/-- nom `terminated`: run `p`, then `q`, keep `p`'s value. -/
def terminated (p : NomP α) (q : NomP β) : NomP α := fun input =>
  match p input with
  | some (rest, a) =>
    match q rest with
    | some (rest2, _) => some (rest2, a)
    | none => none
  | none => none

/-- nom `separated_pair`: `p`, separator, `q`; keep both values. -/
def separated_pair (p : NomP α) (sep : NomP γ) (q : NomP β) :
    NomP (α × β) := fun input =>
  match p input with
  | some (rest, a) =>
    match sep rest with
    | some (rest2, _) =>
      match q rest2 with
      | some (rest3, b) => some (rest3, (a, b))
      | none => none
    | none => none
  | none => none

/-- nom `alt` over two alternatives: first success wins. -/
def alt2 (p q : NomP α) : NomP α := fun input =>
  match p input with
  | some r => some r
  | none => q input

/-- nom `alt` over three alternatives. -/
def alt3 (p q r : NomP α) : NomP α := alt2 p (alt2 q r)

/-- nom `alt` over five alternatives. -/
def alt5 (p q r s t : NomP α) : NomP α := alt2 p (alt2 q (alt2 r (alt2 s t)))

/-- nom `recognize`: run `p` and return the consumed input slice. -/
def recognize (p : NomP α) : NomP (List Char) := fun input =>
  match p input with
  | some (rest, _) => some (rest, input.take (input.length - rest.length))
  | none => none

/-- Fuelled loop shared by `fold_many0` and `many1_count`.  A successful
step that consumes nothing is an error (nom's infinite-loop guard), so
every step strictly shrinks the input and fuel `input.length + 1` never
runs out. -/
def foldMany0Go (p : NomP α) (f : β → α → β) :
    Nat → List Char → β → Option (List Char × β)
  | 0, _, _ => none
  | fuel + 1, input, acc =>
    match p input with
    | none => some (input, acc)
    | some (rest, a) =>
      if rest.length < input.length then foldMany0Go p f fuel rest (f acc a)
      else none

/-- nom `fold_many0`: run `p` zero or more times, folding the results. -/
def fold_many0 (p : NomP α) (init : β) (f : β → α → β) : NomP β :=
  fun input => foldMany0Go p f (input.length + 1) input init

/-- nom `many1_count`: run `p` one or more times, counting. -/
def many1_count (p : NomP α) : NomP Nat := fun input =>
  match p input with
  | none => none
  | some (rest, _) =>
    if rest.length < input.length then
      foldMany0Go p (fun n _ => n + 1) (rest.length + 1) rest 1
    else none

/-! ## HTTP value types (crate reqmd_http)

`QueryString` and `Headers` are ordered lists of key/value pairs with
`add` appending (`src/crates/reqmd_http/src/request/query_string.rs`,
`src/crates/reqmd_http/src/header.rs`).  Query lookup compares keys
exactly; header lookup is ASCII-case-insensitive. -/

/-- HTTP verb (`src/crates/reqmd_http/src/request/method.rs`). -/
inductive Method where
  | Get | Post | Put | Delete | Patch | Head | Connect | Options | Trace
  deriving DecidableEq, Repr

instance : Inhabited Method := ⟨Method.Get⟩

/-- `Method`'s `FromStr`: the known uppercase verb tokens. -/
def Method.from_str (s : String) : Option Method :=
  match s with
  | "GET" => some .Get
  | "POST" => some .Post
  | "PUT" => some .Put
  | "DELETE" => some .Delete
  | "PATCH" => some .Patch
  | "HEAD" => some .Head
  | "CONNECT" => some .Connect
  | "OPTIONS" => some .Options
  | "TRACE" => some .Trace
  | _ => none

/-- One query parameter (key/value). -/
structure QueryParameter where
  key : String
  value : String
  deriving DecidableEq, Repr

/-- Ordered query-parameter list, duplicate keys allowed. -/
abbrev QueryString := List QueryParameter

/-- `QueryString::default`. -/
def QueryString.default : QueryString := []

/-- `QueryString::add`: push a key/value pair at the end. -/
def QueryString.add (q : QueryString) (key value : String) : QueryString :=
  List.concat q ⟨key, value⟩

/-- `QueryString::insert_many`: append many pairs. -/
def QueryString.insert_many (q : QueryString) (ps : List QueryParameter) :
    QueryString :=
  List.append q ps

/-- `QueryString::values_for`: all values whose key matches exactly. -/
def QueryString.values_for (q : QueryString) (key : String) : List String :=
  (List.filter (fun p => p.key == key) q).map QueryParameter.value

/-- `QueryString::first`: first value for a key, exact comparison. -/
def QueryString.first (q : QueryString) (key : String) : Option String :=
  (QueryString.values_for q key).head?

/-- One header line (key/value). -/
structure HeaderLine where
  key : String
  value : String
  deriving DecidableEq, Repr

/-- Ordered header list, duplicate keys allowed. -/
abbrev Headers := List HeaderLine

/-- `Headers::default`. -/
def Headers.default : Headers := []

/-- `Headers::add`: push a key/value pair at the end. -/
def Headers.add (h : Headers) (key value : String) : Headers :=
  List.concat h ⟨key, value⟩

/-- `Headers::insert_many`: append many header lines. -/
def Headers.insert_many (h : Headers) (ls : List HeaderLine) : Headers :=
  List.append h ls

/-- Rust `str::eq_ignore_ascii_case` (both keys here are ASCII). -/
def eqIgnoreAsciiCase (a b : String) : Bool :=
  a.toList.map Char.toLower == b.toList.map Char.toLower

/-- `Headers::values_for`: all values whose key matches case-insensitively. -/
def Headers.values_for (h : Headers) (key : String) : List String :=
  (List.filter (fun l => eqIgnoreAsciiCase l.key key) h).map HeaderLine.value

/-- `Headers::first`: first value for a key, ASCII-case-insensitive. -/
def Headers.first (h : Headers) (key : String) : Option String :=
  (Headers.values_for h key).head?

/-! ## Request-line grammar (src/crates/reqmd_ast/src/http_data/parser.rs) -/

/-- `http_method`: `alpha1` then `map_res` through `Method`'s `FromStr`. -/
def http_method : NomP Method := fun input =>
  match alpha1 input with
  | some (rest, s) =>
    match Method.from_str (String.mk s) with
    | some m => some (rest, m)
    | none => none
  | none => none

/-- The `is_a` character set of `http_path`
(`"-._~!$&'()*+,;=:/@"`; the apostrophe is written by code point). -/
def pathSymbolChars : List Char :=
  "-._~!$&".toList ++ [Char.ofNat 39] ++ "()*+,;=:/@".toList

/-- `http_path`: `recognize(many1_count(alt((alphanumeric1, is_a(...)))))`. -/
def http_path : NomP (List Char) :=
  recognize (many1_count (alt2 alphanumeric1 (is_a pathSymbolChars)))

/-- The `is_a` character set of `char_group`
(`"@!\"'$%^*_-+()<>[]{}/|;`."`; apostrophe and backtick by code point). -/
def querySymbolChars : List Char :=
  "@!\"".toList ++ [Char.ofNat 39] ++ "$%^*_-+()<>[]{}/|;".toList
    ++ [Char.ofNat 96] ++ ".".toList

/-- `char_group` inside `http_query_string`: runs of alphanumerics or
query punctuation, or a backslash followed by one of space, `=`, `&`,
`?`, `\`.  Being wrapped in `recognize`, the escaping backslash stays in
the produced string. -/
def char_group : NomP (List Char) :=
  recognize (many1_count (alt3
    alphanumeric1
    (is_a querySymbolChars)
    (preceded (tag ['\\'])
      (alt5 (tag [' ']) (tag ['=']) (tag ['&']) (tag ['?']) (tag ['\\'])))))

/-- `target_value` inside `http_query_string`: a value terminated by
`&`, or by a line break, at least one space, then `&`, or a bare value. -/
def target_value : NomP (List Char) :=
  alt3
    (terminated char_group (tag ['&']))
    (terminated char_group (preceded newline (preceded space1 (tag ['&']))))
    char_group

/-- `http_query_string`: `?` then folded `key=value` pairs. -/
def http_query_string : NomP QueryString :=
  preceded (tag ['?'])
    (fold_many0 (separated_pair char_group (tag ['=']) target_value)
      QueryString.default
      (fun qs lr => QueryString.add qs (String.mk lr.1) (String.mk lr.2)))

/-- The `is_a` character set of a header value
(`" @!:\"#$%^&*()_-+={}[]|;'<>,.?/`~"`; apostrophe and backtick by code
point). -/
def headerValueChars : List Char :=
  " @!:\"#$%^&*()_-+={}[]|;".toList ++ [Char.ofNat 39] ++ "<>,.?/".toList
    ++ [Char.ofNat 96] ++ "~".toList

/-- `header_line` inside `http_headers`: key of alphanumerics, `-`, `_`;
separator `": "`; value of alphanumerics or header punctuation. -/
def header_line : NomP (List Char × List Char) :=
  separated_pair
    (recognize (many1_count (alt2 alphanumeric1 (is_a ['-', '_']))))
    (tag [':', ' '])
    (recognize (many1_count (alt2 alphanumeric1 (is_a headerValueChars))))

/-- `http_headers`: folded header lines, each optionally newline-terminated. -/
def http_headers : NomP Headers :=
  fold_many0 (alt2 (terminated header_line newline) header_line)
    Headers.default
    (fun hs kv => Headers.add hs (String.mk kv.1) (String.mk kv.2))

/-- Parsed request-line data (fields of `HttpData` the grammar fills). -/
structure ParsedRequest where
  method : Method
  path : String
  query : QueryString
  headers : Headers
  deriving DecidableEq, Repr

/-- `http_data`: method, space, path, optional line break plus indent,
optional query string, optional newline, optional headers. -/
def http_data : NomP ParsedRequest := fun input =>
  match http_method input with
  | none => none
  | some (i1, method) =>
    match space1 i1 with
    | none => none
    | some (i2, _) =>
      match http_path i2 with
      | none => none
      | some (i3, path) =>
        match opt (preceded newline space1) i3 with
        | none => none
        | some (i4, _) =>
          match opt http_query_string i4 with
          | none => none
          | some (i5, query) =>
            match opt newline i5 with
            | none => none
            | some (i6, _) =>
              match opt http_headers i6 with
              | none => none
              | some (i7, headers) =>
                some (i7, { method := method, path := String.mk path,
                            query := query.getD QueryString.default,
                            headers := headers.getD Headers.default })

/-- `parser::parse`: run `http_data` and discard the remaining input
(`let (_, request) = http_data(input).finish()`). -/
def parserParse (input : String) : Option ParsedRequest :=
  match http_data input.toList with
  | some (_, r) => some r
  | none => none

/-! ## Position algebra (src/crates/reqmd_ast/src/position.rs and
src/crates/reqmd_markdown/src/ast/point.rs) -/

/-- Source location: line, column, byte offset. -/
structure Point where
  line : Nat
  column : Nat
  offset : Nat
  deriving DecidableEq, Repr

instance : Inhabited Point := ⟨⟨0, 0, 0⟩⟩

/-- `impl Ord for Point`: compare by byte offset only
(`self.offset.cmp(&other.offset)`). -/
def Point.cmp (a b : Point) : Ordering := compare a.offset b.offset

/-- `<` on `Point`, as derived from the hand-written `Ord`. -/
def Point.lt (a b : Point) : Bool := a.offset < b.offset

/-- `>` on `Point`, as derived from the hand-written `Ord`. -/
def Point.gt (a b : Point) : Bool := b.offset < a.offset

/-- Source span.  The Rust field `end` is a Lean keyword and is named
`endPos` here. -/
structure Position where
  start : Point
  endPos : Point
  deriving DecidableEq, Repr

instance : Inhabited Position := ⟨⟨default, default⟩⟩

/-- `Position::extend`: widen to cover another position (functional
rendering of the in-place mutation). -/
def Position.extend (self other : Position) : Position :=
  { start := if Point.lt other.start self.start then other.start else self.start
    endPos := if Point.gt other.endPos self.endPos then other.endPos
              else self.endPos }

/-- Errors of crate reqmd_ast (`src/crates/reqmd_ast/src/error.rs`);
payloads that only carry diagnostic context (the offending node, the
sliced data) are reduced to the parts the control flow uses. -/
inductive AstError where
  | Parse (msg : String)
  | InvalidYaml (msg : String)
  | MissingPosition
  | InvalidOffset
  deriving DecidableEq, Repr

/-- `Position::find_substring`: `string.get(start.offset..end.offset)`,
an `InvalidOffset` error when the offsets do not index the source. -/
def Position.find_substring (self : Position) (s : List Char) :
    Except AstError (List Char) :=
  if self.start.offset ≤ self.endPos.offset
      ∧ self.endPos.offset ≤ s.length then
    .ok ((s.drop self.start.offset).take
      (self.endPos.offset - self.start.offset))
  else
    .error .InvalidOffset

/-- `Position::exclusive_with`: the two spans do not overlap
(`self.start > other.end || self.end < other.start`). -/
def Position.exclusive_with (self other : Position) : Bool :=
  Point.gt self.start other.endPos || Point.lt self.endPos other.start

/-- `Position::range_between`: the byte range strictly between two
exclusive positions, `none` when they overlap or touch. -/
def Position.range_between (self other : Position) : Option (Nat × Nat) :=
  if Position.exclusive_with self other then
    some (if Point.lt self.endPos other.start then
            (self.endPos.offset, other.start.offset)
          else
            (other.endPos.offset, self.start.offset))
  else none

/-- `Position::contains_line`: start.line ≤ line ≤ end.line. -/
def Position.contains_line (self : Position) (line : Nat) : Bool :=
  decide (self.start.line ≤ line) && decide (self.endPos.line ≥ line)

/-! ## Request body and body data -/

/-- `RequestBody` (crate reqmd_http): none, text or binary. -/
inductive RequestBody where
  | NoBody
  | Text (s : String)
  | Binary (bytes : List UInt8)
  deriving DecidableEq, Repr

instance : Inhabited RequestBody := ⟨RequestBody.NoBody⟩

/-- `BodyData` (`src/crates/reqmd_ast/src/body_data.rs`). -/
structure BodyData where
  content : RequestBody
  lang : Option String
  meta : Option String
  position : Option Position
  deriving DecidableEq, Repr

instance : Inhabited BodyData := ⟨⟨RequestBody.NoBody, none, none, none⟩⟩

/-- `BodyData::default`. -/
def BodyData.default : BodyData := ⟨RequestBody.NoBody, none, none, none⟩

/-! ## Extracted request descriptor (src/crates/reqmd_ast/src/http_data.rs) -/

/-- `HttpData`: one extracted request descriptor. -/
structure HttpData where
  title : Option String
  description : Option String
  method : Method
  path : String
  query : QueryString
  headers : Headers
  body : BodyData
  position : Position
  deriving DecidableEq, Repr

/-- The generic markdown AST node kinds the extractor distinguishes
(`markdown::mdast::Node`, consumed as an external collaborator): a code
block with language tag, meta string, literal value and position; a
heading with position; a front-matter (yaml) node; anything else. -/
inductive MdNode where
  | code (lang : Option String) (meta : Option String) (value : String)
      (position : Option Position)
  | heading (position : Option Position)
  | yaml (position : Option Position)
  | other
  deriving Repr

/-- `is_http_code`: the code block's language tag is exactly "http". -/
def is_http_code (lang : Option String) : Bool := lang == some "http"

/-- Rust `str::trim_start_matches('#')`. -/
def trimStartMatchesHash (l : List Char) : List Char :=
  l.dropWhile (fun c => c == '#')

/-- Rust `str::trim`. -/
def trimChars (l : List Char) : List Char :=
  ((l.dropWhile Char.isWhitespace).reverse.dropWhile Char.isWhitespace).reverse

/-- `BodyData::from(Code)`: text content, language, meta, position. -/
def BodyData.fromCode (lang meta : Option String) (value : String)
    (position : Option Position) : BodyData :=
  ⟨RequestBody.Text value, lang, meta, position⟩

/-- `Position::try_from(node)`: an error when the node has no position. -/
def positionTryFrom (p : Option Position) : Except AstError Position :=
  match p with
  | some pos => .ok pos
  | none => .error .MissingPosition

/-- `parser::parse(&block.value)?` inside `try_collect`: a `nom` failure
becomes `Error::Parse`. -/
def parseStep (value : String) : Except AstError ParsedRequest :=
  match parserParse value with
  | some r => .ok r
  | none => .error (AstError.Parse "HttpData parsing error")

/-- One descriptor of `HttpData::try_collect`: apply the pending-heading
step to a parsed http block (title from the heading's
source slice with `#` and whitespace trimmed, description from the
strictly-between slice when nonempty, position widened over the
heading). -/
def buildDescriptor (input : List Char) (parsed : ParsedRequest)
    (position : Position) (body : BodyData)
    (prior : Option (Option Position)) : Except AstError HttpData := do
  match prior with
  | none =>
    .ok { title := none, description := none,
          method := parsed.method, path := parsed.path,
          query := parsed.query, headers := parsed.headers,
          body := body, position := position }
  | some hpos => do
    let headingPosition ← positionTryFrom hpos
    let slice ← headingPosition.find_substring input
    let title := String.mk (trimChars (trimStartMatchesHash slice))
    let description :=
      match headingPosition.range_between position with
      | some (a, b) =>
        let desc := trimChars ((input.drop a).take (b - a))
        if desc.isEmpty then none else some (String.mk desc)
      | none => none
    .ok { title := some title, description := description,
          method := parsed.method, path := parsed.path,
          query := parsed.query, headers := parsed.headers,
          body := body, position := position.extend headingPosition }

/-- `HttpData::try_collect`: single forward pass over the document's
direct children with one-block lookahead and a pending-heading slot.
`prior` holds the unconsumed heading's (optional) position; it is
cleared once consumed.  A non-http code node falls through the arm's
guard to the wildcard arm, leaving the pending heading untouched. -/
def try_collect (input : List Char) :
    List MdNode → Option (Option Position) → Except AstError (List HttpData)
  | [], _ => .ok []
  | MdNode.heading hpos :: rest, _ => try_collect input rest (some hpos)
  | MdNode.code lang _ value pos ::
      MdNode.code lang2 meta2 value2 pos2 :: rest2, prior =>
    if is_http_code lang then
      if is_http_code lang2 then do
        -- peeked block is another http block: no body
        let parsed ← parseStep value
        let position ← positionTryFrom pos
        let data ← buildDescriptor input parsed position BodyData.default
          prior
        let others ← try_collect input
          (MdNode.code lang2 meta2 value2 pos2 :: rest2) none
        .ok (data :: others)
      else do
        -- consume the peeked block as the body
        let parsed ← parseStep value
        let position ← positionTryFrom pos
        let bodyPos ← positionTryFrom pos2
        let data ← buildDescriptor input parsed (position.extend bodyPos)
          (BodyData.fromCode lang2 meta2 value2 pos2) prior
        let others ← try_collect input rest2 none
        .ok (data :: others)
    else
      try_collect input (MdNode.code lang2 meta2 value2 pos2 :: rest2) prior
  | MdNode.code lang _ value pos :: rest, prior =>
    -- `rest` does not start with a code block here: peek finds no body
    if is_http_code lang then do
      let parsed ← parseStep value
      let position ← positionTryFrom pos
      let data ← buildDescriptor input parsed position BodyData.default prior
      let others ← try_collect input rest none
      .ok (data :: others)
    else
      try_collect input rest prior
  | _ :: rest, prior => try_collect input rest prior
termination_by nodes _ => nodes.length
decreasing_by all_goals simp <;> omega

/-! ## Address and global defaults
(src/crates/reqmd_http/src/address.rs,
src/crates/reqmd_ast/src/address_string.rs,
src/crates/reqmd_ast/src/gloabl_http_defaults.rs) -/

/-- HTTP scheme; `#[default]` is `Http`. -/
inductive Scheme where
  | Http
  | Https
  deriving DecidableEq, Repr

instance : Inhabited Scheme := ⟨Scheme.Http⟩

/-- Server address; the host is kept as its string form. -/
structure Address where
  host : String
  scheme : Scheme
  port : Option Nat
  deriving DecidableEq, Repr

/-- `impl Default for Address`: localhost, default scheme, no port. -/
def Address.default : Address := ⟨"localhost", Scheme.Http, none⟩

instance : Inhabited Address := ⟨Address.default⟩

/-- `AddressString`: parsed address plus the original literal string. -/
structure AddressString where
  address : Address
  data : String
  deriving DecidableEq, Repr

/-- `AddressString`'s derived `Default`. -/
def AddressString.default : AddressString := ⟨Address.default, ""⟩

instance : Inhabited AddressString := ⟨AddressString.default⟩

/-- `GlobalHttpDefaults`: server address, default headers, default query. -/
structure GlobalHttpDefaults where
  server : AddressString
  headers : Headers
  query : QueryString
  deriving DecidableEq, Repr

/-- `GlobalHttpDefaults`'s derived `Default`: empty headers and query,
default (all-default) server address. -/
def GlobalHttpDefaults.default : GlobalHttpDefaults :=
  ⟨AddressString.default, [], []⟩

instance : Inhabited GlobalHttpDefaults := ⟨GlobalHttpDefaults.default⟩

/-! ## Front-matter deserialization
(src/crates/reqmd_ast/src/meta_data.rs,
src/crates/reqmd_ast/src/gloabl_http_defaults.rs)

The YAML text has already been parsed into a structured value by the
external serde_saphyr deserializer; what the repository's code
determines — and what is modelled here — is how that structure is mapped
onto the Rust types: the hand-written visitors of
`gloabl_http_defaults.rs`, and the derived `Deserialize` of the local
`Data` struct in `MetaData::try_from` (serde's derive without
`deny_unknown_fields`, which skips unknown map keys and rejects
duplicate known keys). -/

/-- Structured YAML value (the boundary with serde_saphyr). -/
inductive Yaml where
  | str (s : String)
  | seq (items : List Yaml)
  | map (entries : List (String × Yaml))
  deriving Repr

/-- serde deserialization errors, reduced to their message. -/
abbrev DeError := String

/-- Deserializing a plain string value. -/
def deString : Yaml → Except DeError String
  | .str s => .ok s
  | _ => .error "invalid type: expected a string"

/-- `KeyValVisitor::visit_map`: a `{key, value}` pair; unknown fields,
duplicate fields and missing fields are errors. -/
def deKeyVal (y : Yaml) : Except DeError (String × String) :=
  match y with
  | .map entries => do
    let folded ← entries.foldlM
      (fun (acc : Option String × Option String) kv => do
        if kv.1 = "key" then
          if acc.1.isSome then .error "duplicate field key"
          else do
            let s ← deString kv.2
            .ok (some s, acc.2)
        else if kv.1 = "value" then
          if acc.2.isSome then .error "duplicate field value"
          else do
            let s ← deString kv.2
            .ok (acc.1, some s)
        else .error ("unknown field " ++ kv.1))
      (none, none)
    match folded with
    | (some k, some v) => .ok (k, v)
    | (none, _) => .error "missing field key"
    | (_, none) => .error "missing field value"
  | _ => .error "a key-value pair"

/-- Deserializing a list of `{key, value}` pairs. -/
def deKeyValuePairs (y : Yaml) : Except DeError (List (String × String)) :=
  match y with
  | .seq items => items.mapM deKeyVal
  | _ => .error "invalid type: expected a sequence"

/-- `AddressString`'s `Deserialize`: a string parsed as an address.  The
url parse is modelled as `scheme://host[:port]` with scheme `http` or
`https`; front-matter claims only exercise its success or failure. -/
def deAddressString (y : Yaml) : Except DeError AddressString := do
  let s ← deString y
  let core ←
    if s.startsWith "http://" then .ok (s.drop 7, Scheme.Http)
    else if s.startsWith "https://" then .ok (s.drop 8, Scheme.Https)
    else .error "Error Parsing AddressString"
  let (hostPort, scheme) := core
  if hostPort.isEmpty then .error "Error Parsing AddressString"
  else
    match hostPort.splitOn ":" with
    | [host] => .ok ⟨⟨host, scheme, none⟩, s⟩
    | [host, port] =>
      match port.toNat? with
      | some n => .ok ⟨⟨host, scheme, some n⟩, s⟩
      | none => .error "Error Parsing AddressString"
    | _ => .error "Error Parsing AddressString"

/-- `GlobalHttpDefaultsVisitor::visit_map`: known keys `server`,
`headers`, `query`; a duplicate known key or an *unknown* key is a hard
error; missing keys fall back to defaults. -/
def deGlobalHttpDefaults (y : Yaml) : Except DeError GlobalHttpDefaults :=
  match y with
  | .map entries => do
    let folded ← entries.foldlM
      (fun (acc : Option AddressString × Option (List (String × String))
              × Option (List (String × String))) kv => do
        if kv.1 = "server" then
          if acc.1.isSome then .error "duplicate field server"
          else do
            let s ← deAddressString kv.2
            .ok (some s, acc.2.1, acc.2.2)
        else if kv.1 = "headers" then
          if acc.2.1.isSome then .error "duplicate field headers"
          else do
            let hs ← deKeyValuePairs kv.2
            .ok (acc.1, some hs, acc.2.2)
        else if kv.1 = "query" then
          if acc.2.2.isSome then .error "duplicate field query"
          else do
            let qs ← deKeyValuePairs kv.2
            .ok (acc.1, acc.2.1, some qs)
        else .error ("unknown field " ++ kv.1))
      (none, none, none)
    .ok { server := folded.1.getD AddressString.default
          headers := (folded.2.1.getD []).map (fun kv => ⟨kv.1, kv.2⟩)
          query := (folded.2.2.getD []).map (fun kv => ⟨kv.1, kv.2⟩) }
  | _ => .error "a map representing global HTTP defaults"

/-- The local `Data` struct of `MetaData::try_from`, produced by its
derived `Deserialize`. -/
structure FrontData where
  title : Option String
  description : Option String
  http : GlobalHttpDefaults
  deriving DecidableEq, Repr

/-- The derived `Deserialize` of `Data` (`#[serde(default)]`, no
`deny_unknown_fields`): known top-level keys are `title`, `description`
and `http`; a duplicate known key is an error; an unknown key is
*skipped*; missing keys take defaults. -/
def deFrontData (y : Yaml) : Except DeError FrontData :=
  match y with
  | .map entries => do
    let folded ← entries.foldlM
      (fun (acc : Option String × Option String × Option GlobalHttpDefaults)
          kv => do
        if kv.1 = "title" then
          if acc.1.isSome then .error "duplicate field title"
          else do
            let s ← deString kv.2
            .ok (some s, acc.2.1, acc.2.2)
        else if kv.1 = "description" then
          if acc.2.1.isSome then .error "duplicate field description"
          else do
            let s ← deString kv.2
            .ok (acc.1, some s, acc.2.2)
        else if kv.1 = "http" then
          if acc.2.2.isSome then .error "duplicate field http"
          else do
            let d ← deGlobalHttpDefaults kv.2
            .ok (acc.1, acc.2.1, some d)
        else .ok acc)
      (none, none, none)
    .ok { title := folded.1, description := folded.2.1
          http := folded.2.2.getD GlobalHttpDefaults.default }
  | _ => .error "invalid type: expected a map"

/-- `MetaData` (`src/crates/reqmd_ast/src/meta_data.rs`). -/
structure MetaData where
  title : Option String
  description : Option String
  http : GlobalHttpDefaults
  position : Option Position
  deriving DecidableEq, Repr

/-- `MetaData`'s derived `Default`. -/
def MetaData.default : MetaData :=
  ⟨none, none, GlobalHttpDefaults.default, none⟩

instance : Inhabited MetaData := ⟨MetaData.default⟩

/-- `MetaData::try_from(ParseContext)`: when the document's first child
is a front-matter node, deserialize its (already-parsed) YAML value;
a deserialization failure is `Error::InvalidYaml`.  Without front matter
the all-default `MetaData` is produced. -/
def metaDataTryFrom (children : List (Option (Yaml × Option Position))) :
    Except AstError MetaData :=
  match children.head? with
  | some (some (yamlValue, position)) =>
    match deFrontData yamlValue with
    | .ok data =>
      .ok { title := data.title, description := data.description,
            http := data.http, position := position }
    | .error msg => .error (AstError.InvalidYaml msg)
  | _ => .ok MetaData.default

/-! ## Request and build pipeline
(src/crates/reqmd_http/src/request/builder.rs and factory.rs,
src/crates/reqmd_core/src/factory.rs) -/

/-- `Request` (crate reqmd_http). -/
structure Request where
  address : Address
  method : Method
  path : String
  query : QueryString
  headers : Headers
  body : RequestBody
  deriving DecidableEq, Repr

/-- `Request`'s `Default`. -/
def Request.default : Request :=
  ⟨Address.default, Method.Get, "", [], [], RequestBody.NoBody⟩

instance : Inhabited Request := ⟨Request.default⟩

/-- `GlobalHttpDefaults::factory`: the request skeleton seeded from the
defaults — `Request::factory().address(server).with_headers(headers)
.with_query_string(query).build()`. -/
def GlobalHttpDefaults.factory (d : GlobalHttpDefaults) : Request :=
  { Request.default with
      address := d.server.address
      headers := d.headers
      query := d.query }

/-- The builder chain of `Factory::build_requests` for one descriptor:
`init.builder().method(..).path(..).multiple_headers(..)
.multiple_query_params(..).body(..).build()` — descriptor headers and
query parameters are *appended after* the skeleton's. -/
def merge_descriptor (init : Request) (data : HttpData) : Request :=
  { init with
      method := data.method
      path := data.path
      headers := Headers.insert_many init.headers data.headers
      query := QueryString.insert_many init.query data.query
      body := data.body.content }

/-- Errors of crate reqmd_core (`src/crates/reqmd_core/src/error.rs`).
The boxed sources are reduced to their message; the construction site in
`factory.rs` writes the provider variant as `DefaultProviderError`, the
enum declares it `DefaultProvider`. -/
inductive CoreError where
  | AST (e : AstError)
  | DefaultProvider (provider : String) (source : String)
  | FactoryProcessor (processor : String) (source : String)
  | Http (msg : String)
  deriving DecidableEq, Repr

/-- A registered `DefaultProvider`: a name and its
`apply_global_defaults` (mutation rendered functionally). -/
structure DefaultProviderReg where
  name : String
  apply_global_defaults : GlobalHttpDefaults → Except String GlobalHttpDefaults

/-- A registered `FactoryProcessor`: a name and its `update_request`. -/
structure FactoryProcessorReg where
  name : String
  update_request : HttpData → Request → Except String Request

/-- `MdRequest` (`src/crates/reqmd_core/src/md_request.rs`). -/
structure MdRequest where
  title : Option String
  description : Option String
  request : Request
  data : HttpData
  deriving DecidableEq, Repr

/-- The provider loop of `Factory::build_requests`: each provider runs in
registration order against the threaded defaults; the first failure
aborts with `Error::DefaultProvider` tagged by the provider's name. -/
def applyProviders : List DefaultProviderReg → GlobalHttpDefaults →
    Except CoreError GlobalHttpDefaults
  | [], d => .ok d
  | p :: rest, d =>
    match p.apply_global_defaults d with
    | .error e => .error (CoreError.DefaultProvider p.name e)
    | .ok d2 => applyProviders rest d2

/-- The processor loop of `Factory::build_requests`: each processor runs
in registration order against the threaded request; the first failure
aborts with `Error::FactoryProcessor` tagged by the processor's name. -/
def applyProcessors : List FactoryProcessorReg → HttpData → Request →
    Except CoreError Request
  | [], _, r => .ok r
  | p :: rest, data, r =>
    match p.update_request data r with
    | .error e => .error (CoreError.FactoryProcessor p.name e)
    | .ok r2 => applyProcessors rest data r2

/-- The per-descriptor loop of `Factory::build_requests`. -/
def buildEach (procs : List FactoryProcessorReg) (init : Request) :
    List HttpData → Except CoreError (List MdRequest)
  | [] => .ok []
  | data :: rest => do
    let request ← applyProcessors procs data (merge_descriptor init data)
    let others ← buildEach procs init rest
    .ok ({ title := data.title, description := data.description,
           request := request, data := data } :: others)

/-- `Document` (`src/crates/reqmd_ast/src/document.rs`). -/
structure Document where
  meta : MetaData
  requests : List HttpData
  position : Position

/-- `Factory`: the registered provider and processor chains. -/
structure Factory where
  default_providers : List DefaultProviderReg
  factory_processors : List FactoryProcessorReg

/-- `Factory::build_requests`: empty-document early return, then the
provider loop over a clone of the document's defaults, then the
per-descriptor build loop. -/
def Factory.build_requests (f : Factory) (doc : Document) :
    Except CoreError (List MdRequest) :=
  if doc.requests.isEmpty then .ok []
  else do
    let defaults ← applyProviders f.default_providers doc.meta.http
    let init := defaults.factory
    buildEach f.factory_processors init doc.requests

/-! ## Descriptor list and selection
(src/crates/reqmd_core/src/md_request_list.rs,
src/crates/reqmd_cli/src/structs/selection.rs) -/

/-- `MdRequestList`: the ordered list of built requests. -/
abbrev MdRequestList := List MdRequest

/-- `MdRequestList::at_line`: first request whose source position
contains the 1-based line. -/
def MdRequestList.at_line (l : MdRequestList) (line : Nat) :
    Option MdRequest :=
  l.find? (fun req => req.data.position.contains_line line)

/-- `MdRequestList::first`. -/
def MdRequestList.first (l : MdRequestList) : Option MdRequest := l.head?

/-- `Selection` (crate reqmd_cli): line, 1-based ordinal, first, last.
The `NonZeroUsize` payloads are naturals that the theorems constrain to
be positive. -/
inductive Selection where
  | Line (n : Nat)
  | Nth (n : Nat)
  | First
  | Last
  deriving DecidableEq, Repr

/-- `Selection::select`: first/last/nth/line lookup, `none` when nothing
matches. -/
def Selection.select (s : Selection) (list : MdRequestList) :
    Option MdRequest :=
  match s with
  | .First => list.head?
  | .Last => list.getLast?
  | .Line line => MdRequestList.at_line list line
  | .Nth n => list.get? (n - 1)

/-! ## Statement vocabulary and concrete fixtures

`AlnumStr` keys/values (nonempty ASCII-alphanumeric runs) are the
domain on which the single-line / multi-line query equivalence is
stated: every delimiter the grammar uses (`=`, `&`, newline, indent)
stops a `char_group` run on such text.  The `sample*`/`desc*` values
are concrete inputs used by witnesses and counterexamples. -/

/-- A nonempty ASCII-alphanumeric character run. -/
abbrev AlnumStr (l : List Char) : Prop :=
  l ≠ [] ∧ ∀ c ∈ l, c.isAlphanum = true

/-- A nonempty run of spaces and tabs (a continuation indent). -/
abbrev IndentStr (l : List Char) : Prop :=
  l ≠ [] ∧ ∀ c ∈ l, (c == ' ' || c == '\t') = true

/-- One `key=value` of query-source text. -/
def renderPair (p : List Char × List Char) : List Char :=
  p.1 ++ '=' :: p.2

/-- Query-parameter source text joined by a separator. -/
def renderTail (sep : List Char) :
    List (List Char × List Char) → List Char
  | [] => []
  | [p] => renderPair p
  | p :: rest => renderPair p ++ sep ++ renderTail sep rest

/-- The ordered parameter list named by rendered pairs. -/
def toQueryParams (ps : List (List Char × List Char)) : QueryString :=
  ps.map fun p => ⟨String.mk p.1, String.mk p.2⟩

/-- A character that ends a `char_group` run: not alphanumeric, not
query punctuation, not a backslash. -/
def queryStop (c : Char) : Bool :=
  !(c.isAlphanum || querySymbolChars.contains c || c == '\\')

/-- A node is an "http" block: a code node whose language tag is
exactly "http". -/
def isHttpBlock : MdNode → Bool
  | .code lang _ _ _ => is_http_code lang
  | _ => false

/-- Default set used by the C2 witness: one `Accept` header and one `q`
query parameter. -/
def sampleDefaults : GlobalHttpDefaults :=
  ⟨AddressString.default, [⟨"Accept", "a"⟩], [⟨"q", "1"⟩]⟩

/-- Descriptor used by the C2 witness: duplicates both keys. -/
def sampleDesc : HttpData :=
  { title := none, description := none, method := Method.Get,
    path := "/r", query := [⟨"q", "2"⟩], headers := [⟨"accept", "b"⟩],
    body := BodyData.default, position := ⟨⟨1, 1, 0⟩, ⟨2, 1, 10⟩⟩ }

/-- Document used by the C2 witness. -/
def sampleDoc : Document :=
  ⟨{ MetaData.default with http := sampleDefaults }, [sampleDesc], default⟩

/-- The request the C2 witness expects to be built. -/
def sampleBuilt : MdRequest :=
  { title := none, description := none,
    request := merge_descriptor sampleDefaults.factory sampleDesc,
    data := sampleDesc }

/-- Descriptor with path `/a`, used by the C3 counterexample. -/
def descA : HttpData :=
  { title := none, description := none, method := Method.Get, path := "/a",
    query := [], headers := [], body := BodyData.default,
    position := ⟨⟨1, 1, 0⟩, ⟨1, 1, 0⟩⟩ }

/-- Descriptor with path `/b`, used by the C3 counterexample. -/
def descB : HttpData :=
  { descA with path := "/b" }

/-- A processor that fails exactly on the `/b` descriptor. -/
def failOnB : FactoryProcessorReg :=
  ⟨"P", fun data r => if data.path == "/b" then .error "boom" else .ok r⟩

/-- A sample built request spanning source lines 8–24 (the spec's
at-line example), used by concrete witnesses. -/
def sampleMdRequest : MdRequest :=
  { title := none, description := none, request := Request.default,
    data := { title := none, description := none, method := Method.Get,
              path := "/a", query := [], headers := [],
              body := BodyData.default,
              position := ⟨⟨8, 1, 80⟩, ⟨24, 4, 305⟩⟩ } }

end ReqMd

namespace ReqMd

/-! ## Theorems -/

theorem queryStop_spec (c : Char) (h : queryStop c = true) :
    c.isAlphanum = false ∧ querySymbolChars.contains c = false
      ∧ (c == '\\') = false := by
  simp only [queryStop, Bool.not_eq_true', Bool.or_eq_false_iff] at h
  exact ⟨h.1.1, h.1.2, h.2⟩

theorem takeWhile_append_stop (p : Char → Bool) (l r : List Char)
    (hl : ∀ c ∈ l, p c = true)
    (hr : ∀ c cs, r = c :: cs → p c = false) :
    (l ++ r).takeWhile p = l := by
  induction l with
  | nil =>
    cases r with
    | nil => rfl
    | cons c cs => simp [List.takeWhile_cons, hr c cs rfl]
  | cons a as ih =>
    have ha := hl a (List.mem_cons_self _ _)
    simp [List.takeWhile_cons, ha,
      ih (fun c hc => hl c (List.mem_cons_of_mem _ hc))]

theorem satisfyRun_append (p : Char → Bool) (l r : List Char)
    (hne : l ≠ []) (hl : ∀ c ∈ l, p c = true)
    (hr : ∀ c cs, r = c :: cs → p c = false) :
    satisfyRun p (l ++ r) = some (r, l) := by
  simp only [satisfyRun, takeWhile_append_stop p l r hl hr]
  rw [if_neg (by simpa [List.isEmpty_iff] using hne)]
  rw [List.drop_left]

theorem tag_parses (s r : List Char) : tag s (s ++ r) = some (r, s) := by
  unfold tag
  rw [if_pos (List.isPrefixOf_iff_prefix.mpr (List.prefix_append s r))]
  rw [List.drop_left]

/-- The repeated unit of `char_group` fails on a stop character (and on
empty input). -/
theorem char_group_step_none (r : List Char)
    (hr : ∀ c cs, r = c :: cs → queryStop c = true) :
    (alt3 alphanumeric1 (is_a querySymbolChars)
      (preceded (tag ['\\'])
        (alt5 (tag [' ']) (tag ['=']) (tag ['&']) (tag ['?'])
          (tag ['\\'])))) r = none := by
  cases r with
  | nil => rfl
  | cons c cs =>
    obtain ⟨h1, h2, h3⟩ := queryStop_spec c (hr c cs rfl)
    have hne : c ≠ '\\' := by simpa using h3
    have h3' : ('\\' == c) = false := by
      simp only [beq_eq_false_iff_ne]
      exact fun he => hne he.symm
    have h2m : ¬ c ∈ querySymbolChars := by simpa using h2
    simp [alt3, alt2, alphanumeric1, is_a, satisfyRun,
      List.takeWhile_cons, h1, h2, h2m, preceded, tag, List.isPrefixOf,
      h3']

/-- `char_group` consumes exactly a nonempty alphanumeric run ending at
a stop character (or at the end of input), and returns it verbatim. -/
theorem char_group_parses_run (l r : List Char) (hl : AlnumStr l)
    (hr : ∀ c cs, r = c :: cs → queryStop c = true) :
    char_group (l ++ r) = some (r, l) := by
  obtain ⟨hne, hall⟩ := hl
  have hstep1 : alphanumeric1 (l ++ r) = some (r, l) :=
    satisfyRun_append _ l r hne hall
      (fun c cs hc => (queryStop_spec c (hr c cs hc)).1)
  have hnone := char_group_step_none r hr
  have hlen : r.length < (l ++ r).length := by
    rw [List.length_append]
    have := List.length_pos.mpr hne
    omega
  have halt : (alt3 alphanumeric1 (is_a querySymbolChars)
      (preceded (tag ['\\'])
        (alt5 (tag [' ']) (tag ['=']) (tag ['&']) (tag ['?'])
          (tag ['\\'])))) (l ++ r) = some (r, l) := by
    simp [alt3, alt2, hstep1]
  simp only [char_group, recognize, many1_count, halt, hlen, if_true,
    foldMany0Go, hnone, List.length_append]
  have hlen2 : r.length < l.length + r.length := by
    have := List.length_pos.mpr hne
    omega
  rw [if_pos hlen2]
  simp [Nat.add_sub_cancel, List.take_left]

theorem alnum_not_stop_eq : queryStop '=' = true := by decide

theorem alnum_not_stop_amp : queryStop '&' = true := by decide

theorem alnum_not_stop_nl : queryStop '\n' = true := by decide

/-- `target_value` on the last value of a query string. -/
theorem target_value_last (v : List Char) (hv : AlnumStr v) :
    target_value v = some ([], v) := by
  have hcg : char_group v = some ([], v) := by
    have := char_group_parses_run v [] hv (by intro c cs h; cases h)
    rwa [List.append_nil] at this
  simp [target_value, alt3, alt2, terminated, hcg, tag, preceded, newline]

/-- `target_value` on a value followed directly by `&` (single-line
style): the `&` is consumed. -/
theorem target_value_amp (v rest : List Char) (hv : AlnumStr v) :
    target_value (v ++ '&' :: rest) = some (rest, v) := by
  have hcg : char_group (v ++ '&' :: rest) = some ('&' :: rest, v) :=
    char_group_parses_run v ('&' :: rest) hv
      (by intro c cs h; cases h; exact alnum_not_stop_amp)
  have htag : tag ['&'] ('&' :: rest) = some (rest, ['&']) :=
    tag_parses ['&'] rest
  simp [target_value, alt3, alt2, terminated, hcg, htag]

/-- `target_value` on a value followed by a line break, indent and `&`
(the multi-line continuation style): the whole continuation is
consumed. -/
theorem target_value_newline (v indent rest : List Char)
    (hv : AlnumStr v) (hind : IndentStr indent) :
    target_value (v ++ '\n' :: (indent ++ '&' :: rest))
      = some (rest, v) := by
  obtain ⟨hine, hiall⟩ := hind
  have hcg : char_group (v ++ '\n' :: (indent ++ '&' :: rest))
      = some ('\n' :: (indent ++ '&' :: rest), v) :=
    char_group_parses_run v _ hv
      (by intro c cs h; cases h; exact alnum_not_stop_nl)
  have hsp : space1 (indent ++ '&' :: rest) = some ('&' :: rest, indent) :=
    satisfyRun_append _ indent ('&' :: rest) hine hiall
      (by intro c cs h; cases h; decide)
  have htag : tag ['&'] ('&' :: rest) = some (rest, ['&']) :=
    tag_parses ['&'] rest
  simp [target_value, alt3, alt2, terminated, hcg, tag, preceded,
    newline, hsp, htag]

/-- The `key=value` pair parser of `http_query_string`. -/
theorem pair_parser_nil :
    separated_pair char_group (tag ['=']) target_value [] = none := by
  rfl

/-- The pair parser on `key=value` at the end of the query text. -/
theorem pair_parser_last (k v : List Char) (hk : AlnumStr k)
    (hv : AlnumStr v) :
    separated_pair char_group (tag ['=']) target_value (k ++ '=' :: v)
      = some ([], (k, v)) := by
  have hcg : char_group (k ++ '=' :: v) = some ('=' :: v, k) :=
    char_group_parses_run k ('=' :: v) hk
      (by intro c cs h; cases h; exact alnum_not_stop_eq)
  have htag : tag ['='] ('=' :: v) = some (v, ['=']) := tag_parses ['='] v
  simp [separated_pair, hcg, htag, target_value_last v hv]

/-- The pair parser on `key=value` followed by a separator and further
query text: the separator is consumed along with the value. -/
theorem pair_parser_mid (k v sep tail : List Char) (hk : AlnumStr k)
    (htv : target_value (v ++ (sep ++ tail)) = some (tail, v)) :
    separated_pair char_group (tag ['=']) target_value
      (k ++ '=' :: (v ++ (sep ++ tail))) = some (tail, (k, v)) := by
  have hcg : char_group (k ++ '=' :: (v ++ (sep ++ tail)))
      = some ('=' :: (v ++ (sep ++ tail)), k) :=
    char_group_parses_run k _ hk
      (by intro c cs h; cases h; exact alnum_not_stop_eq)
  have htag : tag ['='] ('=' :: (v ++ (sep ++ tail)))
      = some (v ++ (sep ++ tail), ['=']) := tag_parses ['='] _
  simp [separated_pair, hcg, htag, htv]

/-- The query fold consumes a whole rendered parameter list, appending
each pair in order, for any separator style `target_value` accepts. -/
theorem fold_pairs (sep : List Char)
    (htv : ∀ (v tail : List Char), AlnumStr v →
      target_value (v ++ (sep ++ tail)) = some (tail, v)) :
    ∀ (ps : List (List Char × List Char)) (acc : QueryString)
      (fuel : Nat),
      (∀ p ∈ ps, AlnumStr p.1 ∧ AlnumStr p.2) →
      (renderTail sep ps).length + 1 ≤ fuel →
      foldMany0Go (separated_pair char_group (tag ['=']) target_value)
        (fun qs lr => QueryString.add qs (String.mk lr.1)
          (String.mk lr.2))
        fuel (renderTail sep ps) acc
        = some ([], acc ++ toQueryParams ps) := by
  intro ps
  induction ps with
  | nil =>
    intro acc fuel _ hfuel
    cases fuel with
    | zero => omega
    | succ f =>
      rw [renderTail, foldMany0Go, pair_parser_nil]
      simp [toQueryParams]
  | cons p rest ih =>
    intro acc fuel hps hfuel
    have hp := hps p (List.mem_cons_self _ _)
    have hrest : ∀ q ∈ rest, AlnumStr q.1 ∧ AlnumStr q.2 :=
      fun q hq => hps q (List.mem_cons_of_mem _ hq)
    obtain ⟨hk, hv⟩ := hp
    cases rest with
    | nil =>
      have hren : renderTail sep [p] = p.1 ++ '=' :: p.2 := rfl
      rw [hren] at hfuel ⊢
      have hlen : 0 < (p.1 ++ '=' :: p.2).length := by
        simp [List.length_append]
      have hpl := pair_parser_last p.1 p.2 hk hv
      cases fuel with
      | zero => omega
      | succ f =>
        have hf : 1 ≤ f := by
          simp [List.length_append] at hfuel
          omega
        cases f with
        | zero => omega
        | succ f2 =>
          simp only [foldMany0Go, hpl, List.length_nil, hlen, if_true,
            pair_parser_nil]
          simp [toQueryParams, QueryString.add]
    | cons q rest2 =>
      have hren : renderTail sep (p :: q :: rest2)
          = renderPair p ++ sep ++ renderTail sep (q :: rest2) := rfl
      rw [hren] at hfuel ⊢
      have hpair : separated_pair char_group (tag ['=']) target_value
          (renderPair p ++ sep ++ renderTail sep (q :: rest2))
          = some (renderTail sep (q :: rest2), (p.1, p.2)) := by
        have := pair_parser_mid p.1 p.2 sep (renderTail sep (q :: rest2))
          hk (htv p.2 (renderTail sep (q :: rest2)) hv)
        rw [show p.1 ++ '=' :: (p.2 ++ (sep ++ renderTail sep (q :: rest2)))
            = renderPair p ++ sep ++ renderTail sep (q :: rest2) from by
          simp [renderPair]] at this
        exact this
      have hlt : (renderTail sep (q :: rest2)).length
          < (renderPair p ++ sep ++ renderTail sep (q :: rest2)).length := by
        obtain ⟨hkne, _⟩ := hk
        have := List.length_pos.mpr hkne
        simp [renderPair, List.length_append]
        omega
      cases fuel with
      | zero => omega
      | succ f =>
        have hfle : (renderTail sep (q :: rest2)).length + 1 ≤ f := by
          have hlen := hfuel
          simp [List.length_append] at hlen ⊢
          omega
        simp only [foldMany0Go, hpair, hlt, if_true]
        rw [ih (QueryString.add acc (String.mk p.1) (String.mk p.2)) f
          hrest hfle]
        simp [QueryString.add, toQueryParams]

/-- `http_query_string` on a rendered parameter list: the leading `?`
then the folded pairs, in order. -/
theorem http_query_string_renders (sep : List Char)
    (htv : ∀ (v tail : List Char), AlnumStr v →
      target_value (v ++ (sep ++ tail)) = some (tail, v))
    (ps : List (List Char × List Char))
    (hps : ∀ p ∈ ps, AlnumStr p.1 ∧ AlnumStr p.2) :
    http_query_string ('?' :: renderTail sep ps)
      = some ([], toQueryParams ps) := by
  unfold http_query_string preceded fold_many0
  rw [show ('?' :: renderTail sep ps) = ['?'] ++ renderTail sep ps from
    rfl]
  rw [tag_parses ['?'] (renderTail sep ps)]
  have := fold_pairs sep htv ps QueryString.default
    ((renderTail sep ps).length + 1) hps le_rfl
  simpa [QueryString.default] using this

/-- C1 (amended): a query string written on one line and the same
parameters written with the `&`-after-newline-and-indent continuation
parse to the same ordered query-parameter list; the
`&`-before-newline style is *not* a supported continuation. -/
theorem query_multiline_continuation_equiv
    (ps : List (List Char × List Char)) (indent : List Char)
    (hps : ∀ p ∈ ps, AlnumStr p.1 ∧ AlnumStr p.2)
    (hind : IndentStr indent) :
    http_query_string ('?' :: renderTail ['&'] ps)
      = some ([], toQueryParams ps)
    ∧ http_query_string ('?' :: renderTail ('\n' :: (indent ++ ['&'])) ps)
      = some ([], toQueryParams ps) := by
  constructor
  · refine http_query_string_renders ['&'] ?_ ps hps
    intro v tail hv
    rw [show v ++ (['&'] ++ tail) = v ++ '&' :: tail from by simp]
    exact target_value_amp v tail hv
  · refine http_query_string_renders ('\n' :: (indent ++ ['&'])) ?_ ps hps
    intro v tail hv
    rw [show v ++ (('\n' :: (indent ++ ['&'])) ++ tail)
        = v ++ '\n' :: (indent ++ '&' :: tail) from by simp]
    exact target_value_newline v indent tail hv hind

/-- Witness for C1's amended claim: `?a=1&b=2` and
`?a=1` NEWLINE SPACE `&b=2` both parse to `[a=1, b=2]`. -/
theorem query_multiline_continuation_equiv_witness :
    http_query_string "?a=1&b=2".toList
      = some ([], [⟨"a", "1"⟩, ⟨"b", "2"⟩])
    ∧ http_query_string "?a=1\n &b=2".toList
      = some ([], [⟨"a", "1"⟩, ⟨"b", "2"⟩]) := by
  have h := query_multiline_continuation_equiv
    [(['a'], ['1']), (['b'], ['2'])] [' '] (by decide) (by decide)
  exact ⟨h.1, h.2⟩

/-- Counterexample for C1: with the `&`-before-newline style the fold
stops after the first parameter — `?a=1&` NEWLINE SPACE `b=2` yields
only `[a=1]`, not the single-line list `[a=1, b=2]`. -/
theorem amp_before_newline_not_equivalent :
    (parserParse "GET /x?a=1&b=2").map ParsedRequest.query
      = some [⟨"a", "1"⟩, ⟨"b", "2"⟩]
    ∧ (parserParse "GET /x?a=1&\n b=2").map ParsedRequest.query
      = some [⟨"a", "1"⟩]
    ∧ (parserParse "GET /x?a=1&b=2").map ParsedRequest.query
      ≠ (parserParse "GET /x?a=1&\n b=2").map ParsedRequest.query := by
  refine ⟨rfl, rfl, by decide⟩

/-- Counterexample for C5: `?a=\=b` parses, but the value keeps the
escaping backslash — it is `\=b`, not the bare literal `=b` the claim
asserts. -/
theorem escape_keeps_backslash :
    http_query_string "?a=\\=b".toList = some ([], [⟨"a", "\\=b"⟩])
    ∧ ("\\=b" : String) ≠ "=b" :=
  ⟨rfl, by decide⟩

/-- C5 (amended): inside a query key or value a backslash followed by
one of space, `=`, `&`, `?`, `\` parses successfully, and the escape
sequence appears verbatim — backslash included — in the resulting
string, so delimiters can occur in values only in escaped form. -/
theorem escapes_parse_with_backslash_retained :
    ∀ e ∈ ([' ', '=', '&', '?', '\\'] : List Char),
      http_query_string ('?' :: 'k' :: '=' :: 'x' :: '\\' :: e :: ['y'])
        = some ([], [⟨"k", String.mk ('x' :: '\\' :: e :: ['y'])⟩]) := by
  decide

/-- Witness for C5's amended claim at the escaped `=`. -/
theorem escapes_parse_with_backslash_retained_witness :
    http_query_string ('?' :: 'k' :: '=' :: 'x' :: '\\' :: '=' :: ['y'])
      = some ([], [⟨"k", String.mk ('x' :: '\\' :: '=' :: ['y'])⟩]) :=
  escapes_parse_with_backslash_retained '=' (by decide)

/-- C10: `Point` values are ordered solely by byte offset while
structural equality compares line, column and offset field-wise, so two
points with equal offset but different line or column compare as `eq`
yet are not equal. -/
theorem point_cmp_eq_but_ne (p q : Point) (hoff : p.offset = q.offset)
    (hne : p.line ≠ q.line ∨ p.column ≠ q.column) :
    Point.cmp p q = Ordering.eq ∧ p ≠ q := by
  refine ⟨?_, ?_⟩
  · unfold Point.cmp
    rw [hoff]
    exact compare_eq_iff_eq.mpr rfl
  · intro h
    cases h
    rcases hne with h | h <;> exact h rfl

/-- Witness for C10 at offset 5, lines 1 and 3. -/
theorem point_cmp_eq_but_ne_witness :
    Point.cmp ⟨1, 2, 5⟩ ⟨3, 4, 5⟩ = Ordering.eq
      ∧ (⟨1, 2, 5⟩ : Point) ≠ ⟨3, 4, 5⟩ :=
  point_cmp_eq_but_ne ⟨1, 2, 5⟩ ⟨3, 4, 5⟩ rfl (Or.inl (by decide))

/-- C6: for well-formed ranges, `range_between` is `none` exactly when
neither range ends strictly before the other starts (overlap or touch),
and otherwise yields precisely the span from the earlier range's end
offset to the later range's start offset. -/
theorem range_between_gap_spec (A B : Position)
    (hA : A.start.offset ≤ A.endPos.offset)
    (hB : B.start.offset ≤ B.endPos.offset) :
    (Position.range_between A B = none ↔
      ¬(A.endPos.offset < B.start.offset ∨ B.endPos.offset < A.start.offset))
    ∧ (A.endPos.offset < B.start.offset →
        Position.range_between A B = some (A.endPos.offset, B.start.offset))
    ∧ (B.endPos.offset < A.start.offset →
        Position.range_between A B = some (B.endPos.offset, A.start.offset)) := by
  unfold Position.range_between Position.exclusive_with Point.gt Point.lt
  refine ⟨?_, ?_, ?_⟩
  · by_cases h1 : B.endPos.offset < A.start.offset <;>
      by_cases h2 : A.endPos.offset < B.start.offset <;>
      simp [h1, h2]
  · intro h
    simp [h]
  · intro h
    have h2 : ¬ A.endPos.offset < B.start.offset := by omega
    simp [h, h2]

/-- Witness for C6 with ranges 0–3 and 7–9: the gap is bytes 3–7. -/
theorem range_between_gap_spec_witness :
    Position.range_between ⟨⟨1, 1, 0⟩, ⟨1, 4, 3⟩⟩ ⟨⟨2, 1, 7⟩, ⟨2, 3, 9⟩⟩
      = some (3, 7) :=
  (range_between_gap_spec ⟨⟨1, 1, 0⟩, ⟨1, 4, 3⟩⟩ ⟨⟨2, 1, 7⟩, ⟨2, 3, 9⟩⟩
    (by decide) (by decide)).2.1 (by decide)

/-- C8: a request found by `at_line` really has the line inside its
source range, every selection on the empty list is `none`, an
out-of-range ordinal yields `none`, and a line contained in no request's
range yields `none` — lookups never panic. -/
theorem selection_total_and_line_sound :
    (∀ (l : MdRequestList) (line : Nat) (req : MdRequest),
        MdRequestList.at_line l line = some req →
        req.data.position.contains_line line = true)
    ∧ (∀ s : Selection, Selection.select s [] = none)
    ∧ (∀ (l : MdRequestList) (n : Nat), l.length < n →
        Selection.select (Selection.Nth n) l = none)
    ∧ (∀ (l : MdRequestList) (line : Nat),
        (∀ req ∈ l, req.data.position.contains_line line = false) →
        Selection.select (Selection.Line line) l = none) := by
  refine ⟨?_, ?_, ?_, ?_⟩
  · intro l line req h
    unfold MdRequestList.at_line at h
    have h2 := List.find?_some h
    exact h2
  · intro s
    cases s <;> simp [Selection.select, MdRequestList.at_line]
  · intro l n h
    simp only [Selection.select]
    rw [List.get?_eq_none]
    omega
  · intro l line h
    simp only [Selection.select, MdRequestList.at_line]
    rw [List.find?_eq_none]
    intro x hx
    simp [h x hx]

/-- With no registered processors, the per-descriptor loop builds each
request as the defaults-seeded skeleton overlaid with the descriptor. -/
theorem buildEach_no_processors (init : Request) (l : List HttpData) :
    buildEach [] init l = .ok (l.map fun data =>
      { title := data.title, description := data.description,
        request := merge_descriptor init data, data := data }) := by
  induction l with
  | nil => rfl
  | cons d rest ih =>
    simp [buildEach, applyProcessors, ih, Bind.bind, Except.bind]

/-- First-match header lookup on an appended list stays in the left part
whenever the left part has a (case-insensitive) match. -/
theorem headers_first_append_left (a b : Headers) (k : String)
    (h : (a.any fun l => eqIgnoreAsciiCase l.key k) = true) :
    Headers.first (a ++ b) k = Headers.first a k := by
  unfold Headers.first Headers.values_for
  rw [List.filter_append]
  rcases hf : a.filter (fun l => eqIgnoreAsciiCase l.key k) with _ | ⟨y, ys⟩
  · exfalso
    rw [List.filter_eq_nil_iff] at hf
    rw [List.any_eq_true] at h
    obtain ⟨x, hx, hpx⟩ := h
    exact hf x hx hpx
  · simp [hf]

/-- First-match query lookup on an appended list stays in the left part
whenever the left part has an exact-key match. -/
theorem query_first_append_left (a b : QueryString) (k : String)
    (h : (a.any fun p => p.key == k) = true) :
    QueryString.first (a ++ b) k = QueryString.first a k := by
  unfold QueryString.first QueryString.values_for
  rw [List.filter_append]
  rcases hf : a.filter (fun p => p.key == k) with _ | ⟨y, ys⟩
  · exfalso
    rw [List.filter_eq_nil_iff] at hf
    rw [List.any_eq_true] at h
    obtain ⟨x, hx, hpx⟩ := h
    exact hf x hx hpx
  · simp [hf]

/-- C2: in a build with no processors, every built request's header and
query lists are the provider-mutated defaults followed by the
descriptor's own entries, so first-match lookup for a key present in the
defaults returns the default's value. -/
theorem build_merges_defaults_first (provs : List DefaultProviderReg)
    (doc : Document) (ds : GlobalHttpDefaults) (reqs : List MdRequest)
    (hprov : applyProviders provs doc.meta.http = .ok ds)
    (hbuild : Factory.build_requests ⟨provs, []⟩ doc = .ok reqs) :
    ∀ i req data, reqs.get? i = some req →
      doc.requests.get? i = some data →
      req.request.headers = ds.headers ++ data.headers
      ∧ req.request.query = ds.query ++ data.query
      ∧ (∀ k, (ds.headers.any fun l => eqIgnoreAsciiCase l.key k) = true →
          Headers.first req.request.headers k = Headers.first ds.headers k)
      ∧ (∀ k, (ds.query.any fun p => p.key == k) = true →
          QueryString.first req.request.query k
            = QueryString.first ds.query k) := by
  unfold Factory.build_requests at hbuild
  by_cases hempty : doc.requests.isEmpty
  · rw [List.isEmpty_iff] at hempty
    intro i req data _ hdata
    rw [hempty] at hdata
    simp at hdata
  · have hne : doc.requests.isEmpty = false := by simpa using hempty
    rw [hne] at hbuild
    simp only [Bool.false_eq_true, if_false] at hbuild
    rw [hprov] at hbuild
    simp only [Bind.bind, Except.bind] at hbuild
    rw [buildEach_no_processors] at hbuild
    simp only [Except.ok.injEq] at hbuild
    subst hbuild
    intro i req data hreq hdata
    rw [List.get?_map, hdata] at hreq
    cases hreq
    refine ⟨rfl, rfl, ?_, ?_⟩
    · intro k hk
      have : (merge_descriptor ds.factory data).headers
          = ds.headers ++ data.headers := rfl
      rw [this]
      exact headers_first_append_left ds.headers data.headers k hk
    · intro k hk
      have : (merge_descriptor ds.factory data).query
          = ds.query ++ data.query := rfl
      rw [this]
      exact query_first_append_left ds.query data.query k hk

/-- Witness for C2: with defaults `Accept: a` and descriptor
`accept: b`, first-match lookup returns the default's value. -/
theorem build_merges_defaults_first_witness :
    Headers.first sampleBuilt.request.headers "accept"
      = Headers.first sampleDefaults.headers "accept" :=
  (build_merges_defaults_first [] sampleDoc sampleDefaults [sampleBuilt]
    rfl rfl 0 sampleBuilt sampleDesc rfl rfl).2.2.1 "accept" (by decide)

/-- C3 (amended): a failing stage aborts the build at once — the first
failing provider or processor yields an error tagged with that stage's
name, later stages and descriptors are never consulted, and the build
returns that error rather than any partial list. -/
theorem build_aborts_on_stage_error :
    (∀ (p : DefaultProviderReg) (rest : List DefaultProviderReg)
        (d : GlobalHttpDefaults) (e : String),
        p.apply_global_defaults d = .error e →
        applyProviders (p :: rest) d
          = .error (CoreError.DefaultProvider p.name e))
    ∧ (∀ (ps qs : List DefaultProviderReg) (d : GlobalHttpDefaults)
        (err : CoreError),
        applyProviders ps d = .error err →
        applyProviders (ps ++ qs) d = .error err)
    ∧ (∀ (p : FactoryProcessorReg) (rest : List FactoryProcessorReg)
        (data : HttpData) (r : Request) (e : String),
        p.update_request data r = .error e →
        applyProcessors (p :: rest) data r
          = .error (CoreError.FactoryProcessor p.name e))
    ∧ (∀ (ps qs : List FactoryProcessorReg) (data : HttpData) (r : Request)
        (err : CoreError),
        applyProcessors ps data r = .error err →
        applyProcessors (ps ++ qs) data r = .error err)
    ∧ (∀ (procs : List FactoryProcessorReg) (init : Request)
        (l1 l2 : List HttpData) (err : CoreError),
        buildEach procs init l1 = .error err →
        buildEach procs init (l1 ++ l2) = .error err)
    ∧ (∀ (f : Factory) (doc : Document) (err : CoreError),
        doc.requests ≠ [] →
        applyProviders f.default_providers doc.meta.http = .error err →
        f.build_requests doc = .error err)
    ∧ (∀ (f : Factory) (doc : Document) (ds : GlobalHttpDefaults)
        (err : CoreError),
        applyProviders f.default_providers doc.meta.http = .ok ds →
        buildEach f.factory_processors ds.factory doc.requests = .error err →
        f.build_requests doc = .error err) := by
  refine ⟨?_, ?_, ?_, ?_, ?_, ?_, ?_⟩
  · intro p rest d e h
    simp [applyProviders, h]
  · intro ps qs d err h
    induction ps generalizing d with
    | nil => simp [applyProviders] at h
    | cons p rest ih =>
      simp only [applyProviders, List.cons_append] at h ⊢
      rcases hp : p.apply_global_defaults d with e | d2 <;> rw [hp] at h
      · exact h
      · exact ih d2 h
  · intro p rest data r e h
    simp [applyProcessors, h]
  · intro ps qs data r err h
    induction ps generalizing r with
    | nil => simp [applyProcessors] at h
    | cons p rest ih =>
      simp only [applyProcessors, List.cons_append] at h ⊢
      rcases hp : p.update_request data r with e | r2 <;> rw [hp] at h
      · exact h
      · exact ih r2 h
  · intro procs init l1 l2 err h
    induction l1 with
    | nil => simp [buildEach] at h
    | cons d rest ih =>
      simp only [buildEach, List.cons_append, List.append_eq, Bind.bind,
        Except.bind] at h ⊢
      rcases hp : applyProcessors procs d (merge_descriptor init d)
          with e | r2 <;> rw [hp] at h
      · exact h
      · rcases hb : buildEach procs init rest with e2 | l3 <;>
          rw [hb] at h
        · simp only [Except.error.injEq] at h
          subst h
          rw [ih hb]
        · exact absurd h (by simp)
  · intro f doc err hne h
    unfold Factory.build_requests
    rw [if_neg (by simpa [List.isEmpty_iff] using hne)]
    simp [h, Bind.bind, Except.bind]
  · intro f doc ds err hok h
    unfold Factory.build_requests
    by_cases hempty : doc.requests.isEmpty
    · rw [List.isEmpty_iff] at hempty
      rw [hempty] at h
      simp [buildEach] at h
    · rw [if_neg (by simpa using hempty)]
      simp [hok, h, Bind.bind, Except.bind]

/-- Witness for C3: a single always-failing provider aborts with its
name in the error. -/
theorem build_aborts_on_stage_error_witness :
    applyProviders [⟨"N", fun _ => .error "x"⟩] GlobalHttpDefaults.default
      = .error (CoreError.DefaultProvider "N" "x") :=
  build_aborts_on_stage_error.1 ⟨"N", fun _ => .error "x"⟩ []
    GlobalHttpDefaults.default "x" rfl

/-- Counterexample for C3: the same processor failing while the *first*
descriptor is in flight and while the *second* is in flight produces the
very same error value — `Error::FactoryProcessor` carries the processor
name and source only, and does not identify which descriptor was being
processed. -/
theorem processor_error_not_descriptor_tagged :
    Factory.build_requests ⟨[], [failOnB]⟩
        ⟨MetaData.default, [descB, descA], default⟩
      = Factory.build_requests ⟨[], [failOnB]⟩
        ⟨MetaData.default, [descA, descB], default⟩
    ∧ Factory.build_requests ⟨[], [failOnB]⟩
        ⟨MetaData.default, [descB, descA], default⟩
      = .error (CoreError.FactoryProcessor "P" "boom") := by
  refine ⟨?_, ?_⟩ <;> rfl

/-- C7: a document with no "http" code block extracts an empty
descriptor list, and building a document with no descriptors returns an
empty list for every factory — in particular for factories whose
providers always fail, so no provider is consulted. -/
theorem no_http_blocks_empty_build :
    (∀ (input : List Char) (nodes : List MdNode)
        (prior : Option (Option Position)),
        (∀ n ∈ nodes, isHttpBlock n = false) →
        try_collect input nodes prior = .ok [])
    ∧ (∀ (provs : List DefaultProviderReg)
        (procs : List FactoryProcessorReg) (doc : Document),
        doc.requests = [] →
        Factory.build_requests ⟨provs, procs⟩ doc = .ok []) := by
  constructor
  · intro input nodes prior hno
    have main : ∀ (k : Nat) (nodes : List MdNode)
        (prior : Option (Option Position)), nodes.length ≤ k →
        (∀ n ∈ nodes, isHttpBlock n = false) →
        try_collect input nodes prior = .ok [] := by
      intro k
      induction k with
      | zero =>
        intro nodes prior hlen _
        cases nodes with
        | nil => rw [try_collect]
        | cons a b => simp at hlen
      | succ k ihk =>
        intro nodes prior hlen hno
        cases nodes with
        | nil => rw [try_collect]
        | cons head rest =>
          have hhead := hno head (List.mem_cons_self _ _)
          have htail : ∀ n ∈ rest, isHttpBlock n = false :=
            fun n hn => hno n (List.mem_cons_of_mem _ hn)
          have hlen2 : rest.length ≤ k := by simp at hlen; omega
          cases head with
          | heading hpos =>
            simp only [try_collect]
            exact ihk rest _ hlen2 htail
          | code lang m v pos =>
            have hfalse : is_http_code lang = false := by
              simpa [isHttpBlock] using hhead
            cases rest with
            | nil => simp [try_collect, hfalse]
            | cons head2 rest2 =>
              have hlen3 : rest2.length ≤ k := by
                simp at hlen2 ⊢; omega
              have htail2 : ∀ n ∈ rest2, isHttpBlock n = false :=
                fun n hn => htail n (List.mem_cons_of_mem _ hn)
              cases head2 with
              | code lang2 m2 v2 pos2 =>
                simp only [try_collect, hfalse, Bool.false_eq_true,
                  if_false]
                exact ihk _ _ hlen2 htail
              | heading hpos2 =>
                simp only [try_collect, hfalse, Bool.false_eq_true,
                  if_false]
                exact ihk _ _ hlen3 htail2
              | yaml pos2 =>
                simp only [try_collect, hfalse, Bool.false_eq_true,
                  if_false]
                exact ihk _ _ hlen3 htail2
              | other =>
                simp only [try_collect, hfalse, Bool.false_eq_true,
                  if_false]
                exact ihk _ _ hlen3 htail2
          | yaml pos =>
            simp only [try_collect]
            exact ihk rest _ hlen2 htail
          | other =>
            simp only [try_collect]
            exact ihk rest _ hlen2 htail
    exact main nodes.length nodes prior le_rfl hno
  · intro provs procs doc hreq
    unfold Factory.build_requests
    rw [if_pos (by simp [hreq])]

/-- Witness for C7: a document of a heading, prose and a json code block
extracts nothing, and a descriptor-free build with an always-failing
provider still returns an empty list. -/
theorem no_http_blocks_empty_build_witness :
    try_collect [] [MdNode.heading none, MdNode.other,
        MdNode.code (some "json") none "x" none] none = .ok []
    ∧ Factory.build_requests ⟨[⟨"F", fun _ => .error "always"⟩], []⟩
        ⟨MetaData.default, [], default⟩ = .ok [] :=
  ⟨no_http_blocks_empty_build.1 [] [MdNode.heading none, MdNode.other,
      MdNode.code (some "json") none "x" none] none (by decide),
    no_http_blocks_empty_build.2 [⟨"F", fun _ => .error "always"⟩] []
      ⟨MetaData.default, [], default⟩ rfl⟩

/-- Counterexample for C4: a front-matter block whose top level holds
only the unknown key `bogus` deserializes *successfully* to the
all-default `MetaData` — serde's derived `Deserialize` without
`deny_unknown_fields` skips unknown top-level keys instead of failing. -/
theorem front_matter_unknown_top_level_key_ok :
    metaDataTryFrom [some (Yaml.map [("bogus", Yaml.str "x")], none)]
      = .ok MetaData.default := by
  rfl

/-- C4 (amended): an unknown key inside the `http` sub-object is a hard
error, an unknown *top-level* front-matter key is skipped, and a
document with no front matter yields the all-default `MetaData` — empty
default headers and query, default scheme. -/
theorem front_matter_schema_spec :
    (∀ (k : String) (v : Yaml), k ≠ "server" → k ≠ "headers" →
        k ≠ "query" →
        deGlobalHttpDefaults (Yaml.map [(k, v)])
          = .error ("unknown field " ++ k))
    ∧ (∀ (k : String) (v : Yaml), k ≠ "title" → k ≠ "description" →
        k ≠ "http" →
        deFrontData (Yaml.map [(k, v)])
          = .ok ⟨none, none, GlobalHttpDefaults.default⟩)
    ∧ metaDataTryFrom [] = .ok MetaData.default
    ∧ MetaData.default.http.headers = []
    ∧ MetaData.default.http.query = []
    ∧ MetaData.default.http.server.address.scheme = Scheme.Http := by
  refine ⟨?_, ?_, rfl, rfl, rfl, rfl⟩
  · intro k v h1 h2 h3
    simp [deGlobalHttpDefaults, List.foldlM, h1, h2, h3, Bind.bind,
      Except.bind]
  · intro k v h1 h2 h3
    simp [deFrontData, List.foldlM, h1, h2, h3, Bind.bind, Except.bind,
      pure, Except.pure]

/-- Witness for C4's amended claim at the key `bogus`. -/
theorem front_matter_schema_spec_witness :
    deGlobalHttpDefaults (Yaml.map [("bogus", Yaml.str "x")])
      = .error ("unknown field " ++ "bogus")
    ∧ deFrontData (Yaml.map [("bogus", Yaml.str "x")])
      = .ok ⟨none, none, GlobalHttpDefaults.default⟩ :=
  ⟨front_matter_schema_spec.1 "bogus" (Yaml.str "x") (by decide)
      (by decide) (by decide),
    front_matter_schema_spec.2.1 "bogus" (Yaml.str "x") (by decide)
      (by decide) (by decide)⟩

/-- C9: a heading followed by two consecutive http blocks titles only
the first resulting descriptor; the pending heading is cleared after
first use, so the second descriptor has neither title nor description. -/
theorem heading_title_consumed_once (input : List Char)
    (hpos pos1 pos2 : Position) (m1 m2 : Option String) (v1 v2 : String)
    (r1 r2 : ParsedRequest) (t : List Char)
    (hp1 : parserParse v1 = some r1) (hp2 : parserParse v2 = some r2)
    (hfind : Position.find_substring hpos input = .ok t) :
    ∃ d1 d2, try_collect input
        [MdNode.heading (some hpos),
         MdNode.code (some "http") m1 v1 (some pos1),
         MdNode.code (some "http") m2 v2 (some pos2)] none = .ok [d1, d2]
      ∧ d1.title = some (String.mk (trimChars (trimStartMatchesHash t)))
      ∧ d2.title = none ∧ d2.description = none := by
  refine ⟨⟨some (String.mk (trimChars (trimStartMatchesHash t))),
      (match Position.range_between hpos pos1 with
        | some (a, b) =>
          if (trimChars ((input.drop a).take (b - a))).isEmpty then none
          else some (String.mk (trimChars ((input.drop a).take (b - a))))
        | none => none),
      r1.method, r1.path, r1.query, r1.headers, BodyData.default,
      pos1.extend hpos⟩,
    ⟨none, none, r2.method, r2.path, r2.query, r2.headers,
      BodyData.default, pos2⟩,
    ?_, rfl, rfl, rfl⟩
  simp only [try_collect, is_http_code, parseStep, hp1, hp2,
    buildDescriptor, positionTryFrom, hfind, Bind.bind, Except.bind]
  rfl

/-- Witness for C9 on the source `# T` with two `GET /a` blocks: the
first descriptor is titled `T`, the second has no title and no
description. -/
theorem heading_title_consumed_once_witness :
    (try_collect "# T".toList
        [MdNode.heading (some ⟨⟨1, 1, 0⟩, ⟨1, 4, 3⟩⟩),
         MdNode.code (some "http") none "GET /a"
           (some ⟨⟨3, 1, 5⟩, ⟨5, 4, 20⟩⟩),
         MdNode.code (some "http") none "GET /a"
           (some ⟨⟨7, 1, 22⟩, ⟨9, 4, 40⟩⟩)] none).map
      (fun l => (l.map HttpData.title, (l.map HttpData.description).get? 1))
      = .ok ([some "T", none], some none) := by
  obtain ⟨d1, d2, he, ht1, ht2, hd2⟩ :=
    heading_title_consumed_once "# T".toList
      ⟨⟨1, 1, 0⟩, ⟨1, 4, 3⟩⟩ ⟨⟨3, 1, 5⟩, ⟨5, 4, 20⟩⟩
      ⟨⟨7, 1, 22⟩, ⟨9, 4, 40⟩⟩ none none "GET /a" "GET /a"
      ⟨Method.Get, "/a", [], []⟩ ⟨Method.Get, "/a", [], []⟩
      "# T".toList rfl rfl rfl
  rw [he]
  simp only [Except.map, List.map, ht1, ht2, hd2]
  rfl

/-- Witness for C8: line 10 is found inside the sample request's range
(lines 8–24), while every selection on an empty list yields `none`. -/
theorem selection_total_and_line_sound_witness :
    sampleMdRequest.data.position.contains_line 10 = true
    ∧ Selection.select Selection.First [] = none
    ∧ Selection.select (Selection.Nth 3) [] = none
    ∧ Selection.select (Selection.Line 1) [] = none :=
  ⟨selection_total_and_line_sound.1 [sampleMdRequest] 10 sampleMdRequest
      (by decide),
    selection_total_and_line_sound.2.1 Selection.First,
    selection_total_and_line_sound.2.2.1 [] 3 (by decide),
    selection_total_and_line_sound.2.2.2 [] 1 (by intro req h; cases h)⟩

end ReqMd
